import Mathlib

/-
  Verification of the tabular type-inference and aggregation engine of the
  epoldata_to_stream repository, as a shallow embedding in Lean 4.

  Tables are modelled row-major: a header of column names plus a list of rows,
  each row a list of cells.  Cells are a tagged variant mirroring the dynamic
  pandas cell values used by the source: null (NaN/None/NaT), strings, numbers
  (exact rationals standing for Python floats; every arithmetic step performed
  by the verified code paths is exact on the inputs considered), timestamps
  (abstract integers), booleans, and flat lists of scalars (the only list shape
  produced and consumed by the source pipeline).
-/

namespace EpolData

/-- Scalar cell values of a table column. -/
inductive Scalar where
  | null
  | str (s : String)
  | num (q : ℚ)
  | time (n : ℤ)
  | boolean (b : Bool)
deriving DecidableEq, Repr

/-- A table cell: a scalar or a (flat) list of scalars, as produced by the
pack step and consumed by the explode step of the source. -/
inductive Cell where
  | scalar (v : Scalar)
  | list (xs : List Scalar)
deriving DecidableEq, Repr

/-- The pandas missing value (NaN / None / NaT). -/
def Cell.isNull : Cell → Bool
  | .scalar .null => true
  | _ => false

/-- Whether the cell is a python list object (unhashable for pandas). -/
def Cell.isList : Cell → Bool
  | .list _ => true
  | _ => false

/-- A table: ordered column names and rows of cells (row-major). -/
structure Table where
  header : List String
  rows : List (List Cell)
deriving DecidableEq, Repr

/-- Cell of a row at a column position (missing positions read as null,
matching how the verified statements are only used on well-formed rows). -/
def cellAt (r : List Cell) (i : Nat) : Cell :=
  r.getD i (.scalar .null)

/-- Index of the first occurrence of a name in a list of names. -/
def idxOfName : List String → String → Option Nat
  | [], _ => none
  | a :: l, c => if a = c then some 0 else (idxOfName l c).map (· + 1)

/-- Position of a column name in the header (first occurrence), as used by
column indexing in the source. -/
def Table.colIdx (t : Table) (c : String) : Option Nat :=
  idxOfName t.header c

theorem idxOfName_getD (l : List String) (c : String) (j : Nat)
    (h : idxOfName l c = some j) : l.getD j "" = c := by
  induction l generalizing j with
  | nil => simp [idxOfName] at h
  | cons a l ih =>
    by_cases hac : a = c
    · rw [idxOfName, if_pos hac] at h
      obtain rfl := Option.some.inj h
      simpa using hac
    · rw [idxOfName, if_neg hac] at h
      cases hrec : idxOfName l c with
      | none => rw [hrec] at h; simp at h
      | some j₀ =>
        rw [hrec] at h
        obtain rfl : j₀ + 1 = j := Option.some.inj h
        simpa using ih j₀ hrec

/-- The sequence of cells of the column at position `i`. -/
def Table.colAt (t : Table) (i : Nat) : List Cell :=
  t.rows.map (cellAt · i)

/-- Remove duplicates keeping the first occurrence of each element, walking
the list with the set of elements already seen.  This is the order in which
grouping keys are formed here.  (pandas `groupby` sorts its group keys;
every verified statement is insensitive to the order of groups, so
first-occurrence order is used.) -/
def dedupFirstAux {α : Type} [DecidableEq α] (seen : List α) :
    List α → List α
  | [] => []
  | x :: xs =>
    if x ∈ seen then dedupFirstAux seen xs
    else x :: dedupFirstAux (x :: seen) xs

/-- Remove duplicates keeping the first occurrence of each element. -/
def dedupFirst {α : Type} [DecidableEq α] (l : List α) : List α :=
  dedupFirstAux [] l

theorem mem_dedupFirstAux {α : Type} [DecidableEq α] (l : List α)
    (seen : List α) (a : α) :
    a ∈ dedupFirstAux seen l ↔ a ∈ l ∧ a ∉ seen := by
  induction l generalizing seen with
  | nil => simp [dedupFirstAux]
  | cons x xs ih =>
    by_cases hx : x ∈ seen
    · rw [dedupFirstAux, if_pos hx, ih]
      constructor
      · rintro ⟨h1, h2⟩
        exact ⟨List.mem_cons_of_mem _ h1, h2⟩
      · rintro ⟨h1, h2⟩
        rcases List.mem_cons.mp h1 with rfl | h1
        · exact absurd hx h2
        · exact ⟨h1, h2⟩
    · rw [dedupFirstAux, if_neg hx]
      constructor
      · intro h
        rcases List.mem_cons.mp h with rfl | h
        · exact ⟨List.mem_cons_self _ _, hx⟩
        · have h₂ := (ih _).mp h
          exact ⟨List.mem_cons_of_mem _ h₂.1,
            fun hs => h₂.2 (List.mem_cons_of_mem _ hs)⟩
      · rintro ⟨h1, h2⟩
        rcases List.mem_cons.mp h1 with rfl | h1
        · exact List.mem_cons_self _ _
        · by_cases hax : a = x
          · subst hax
            exact List.mem_cons_self _ _
          · exact List.mem_cons_of_mem _
              ((ih _).mpr ⟨h1, by simp [List.mem_cons, hax, h2]⟩)

theorem mem_dedupFirst {α : Type} [DecidableEq α] (l : List α) (a : α) :
    a ∈ dedupFirst l ↔ a ∈ l := by
  simp [dedupFirst, mem_dedupFirstAux]

theorem nodup_dedupFirstAux {α : Type} [DecidableEq α] (l : List α)
    (seen : List α) : (dedupFirstAux seen l).Nodup := by
  induction l generalizing seen with
  | nil => simp [dedupFirstAux]
  | cons x xs ih =>
    by_cases hx : x ∈ seen
    · simpa [dedupFirstAux, hx] using ih seen
    · rw [dedupFirstAux, if_neg hx]
      rw [List.nodup_cons]
      refine ⟨fun hmem => ?_, ih _⟩
      exact ((mem_dedupFirstAux _ _ _).mp hmem).2 (List.mem_cons_self _ _)

theorem nodup_dedupFirst {α : Type} [DecidableEq α] (l : List α) :
    (dedupFirst l).Nodup :=
  nodup_dedupFirstAux l []

/-! ## Configuration constants (src/src/config.py) -/

/-- src/src/config.py line 7. -/
def KEY_COLUMN_PRINCIPAL : String := "Caso Id"

/-- src/src/config.py line 29. -/
def NULLS_PLACEHOLDERS_TO_DROP : List String :=
  ["-", "", "None", "<NA>", "nan", "nat", "undefined"]

/-- src/src/config.py lines 63-65. -/
def LIST_COLS_TO_EXPLODE : List String := ["Tipo Penal"]

/-! ## Safe list-literal parsing (the fragment of ast.literal_eval the
List-Column Expander relies on: list literals whose items are quoted strings
or unsigned integers).  A parse failure is reported as `none`, standing for
the ValueError / SyntaxError that ast.literal_eval raises. -/

/-- str.startswith, computed over the underlying character list (the
built-in String.startsWith does not evaluate inside the kernel). -/
def strStartsWith (s p : String) : Bool :=
  s.data.take p.data.length == p.data

/-- str.endswith, computed over the underlying character list. -/
def strEndsWith (s p : String) : Bool :=
  s.data.reverse.take p.data.length == p.data.reverse

/-- Single or double quote character. -/
def isQuoteChar (c : Char) : Bool :=
  c = Char.ofNat 39 || c = Char.ofNat 34

/-- Consume characters up to (and including) the closing quote `q`. -/
def takeUntilQuote (q : Char) : List Char → Option (List Char × List Char)
  | [] => none
  | c :: cs =>
    if c = q then some ([], cs)
    else
      match takeUntilQuote q cs with
      | some (s, rest) => some (c :: s, rest)
      | none => none

/-- Drop leading spaces. -/
def skipSpaces : List Char → List Char
  | ' ' :: cs => skipSpaces cs
  | cs => cs

/-- Parse one literal item: a quoted string or an unsigned integer. -/
def parseItem : List Char → Option (Scalar × List Char)
  | [] => none
  | c :: cs =>
    if isQuoteChar c then
      match takeUntilQuote c cs with
      | some (s, rest) => some (.str (String.mk s), rest)
      | none => none
    else if c.isDigit then
      let digits := (c :: cs).takeWhile Char.isDigit
      let rest := (c :: cs).dropWhile Char.isDigit
      some (.num ((String.mk digits).toNat!), rest)
    else none

/-- Parse the items of a list literal after the opening bracket, fuelled by
the remaining input length. -/
def parseItems : Nat → List Char → Option (List Scalar × List Char)
  | 0, _ => none
  | fuel + 1, cs =>
    match parseItem (skipSpaces cs) with
    | none => none
    | some (v, rest) =>
      match skipSpaces rest with
      | ']' :: rest₂ => some ([v], rest₂)
      | ',' :: rest₂ =>
        match parseItems fuel rest₂ with
        | some (vs, rest₃) => some (v :: vs, rest₃)
        | none => none
      | _ => none

/-- The modelled ast.literal_eval, restricted to list literals: returns the
parsed list of scalars, or `none` when the literal is malformed (modelling
the exception ast.literal_eval raises on such input). -/
def literal_eval_list (s : String) : Option (List Scalar) :=
  match skipSpaces s.data with
  | '[' :: rest =>
    match skipSpaces rest with
    | ']' :: tail => if skipSpaces tail = [] then some [] else none
    | _ =>
      match parseItems (rest.length + 1) rest with
      | some (vs, tail) => if skipSpaces tail = [] then some vs else none
      | none => none
  | _ => none

/-! ## List-Column Expander (src/src/gui_components.py, prepare_agg_data
lines 202-227) -/

/-- Detection used at gui_components.py line 206-208: a non-null cell that is
a string starting with an opening bracket and ending with a closing one. -/
def looksLikeListStr (c : Cell) : Bool :=
  match c with
  | .scalar (.str s) => strStartsWith s "[" && strEndsWith s "]"
  | _ => false

/-- The per-cell parse of gui_components.py lines 212-214: a string cell
starting with an opening bracket goes through literal evaluation (whose
failure propagates as an exception — there is no try/except around it);
every other cell is returned unchanged. -/
def parseCellStep (c : Cell) : Except String Cell :=
  match c with
  | .scalar (.str s) =>
    if strStartsWith s "[" then
      match literal_eval_list s with
      | some xs => .ok (.list xs)
      | none => .error ("malformed node or string: " ++ s)
    else .ok c
  | _ => .ok c

/-- Applying the parse of lines 212-214 across the whole table, rewriting
only the column at position `i`; the first cell whose literal fails to parse
aborts the traversal with that error (modelling the exception escaping from
Series.apply). -/
def parse_rows (i : Nat) : List (List Cell) → Except String (List (List Cell))
  | [] => .ok []
  | r :: rs =>
    match parseCellStep (cellAt r i) with
    | .error e => .error e
    | .ok c =>
      match parse_rows i rs with
      | .error e => .error e
      | .ok rs₂ => .ok (r.set i c :: rs₂)

/-- pandas DataFrame.explode on the column at position `i`, one source row at
a time: a list cell yields one row per element (or a single null row when the
list is empty); any other cell leaves the row unchanged. -/
def explodeRow (i : Nat) (r : List Cell) : List (List Cell) :=
  match cellAt r i with
  | .list [] => [r.set i (.scalar .null)]
  | .list xs => xs.map (fun v => r.set i (.scalar v))
  | _ => [r]

/-- pandas DataFrame.explode at column position `i`. -/
def explodeAt (t : Table) (i : Nat) : Table :=
  ⟨t.header, (t.rows.map (explodeRow i)).flatten⟩

/-- The List-Column Expander: gui_components.py lines 202-227.  For a column
configured in LIST_COLS_TO_EXPLODE: detect serialized list strings, parse
them back to lists (a malformed literal raises), then explode the column if
it now holds any genuine list.  Any other column passes through untouched. -/
def expander_step (t : Table) (colAgg : String) : Except String Table :=
  if colAgg ∈ LIST_COLS_TO_EXPLODE then
    match t.colIdx colAgg with
    | none => .error "KeyError"
    | some i =>
      let isStringified := (t.colAt i).any looksLikeListStr
      match (if isStringified then parse_rows i t.rows else .ok t.rows) with
      | .error e => .error e
      | .ok rows₂ =>
        let t₂ : Table := ⟨t.header, rows₂⟩
        let isListCol := (t₂.colAt i).any Cell.isList
        .ok (if isListCol then explodeAt t₂ i else t₂)
  else .ok t

/-! ## Aggregator (src/src/gui_components.py, prepare_agg_data
lines 229-243) -/

/-- Null / placeholder canonicalization of gui_components.py line 232: a cell
equal to one of the configured placeholder tokens, or a true null, becomes
the canonical label "Sem Registro"; every other cell is unchanged. -/
def canonicalCell (c : Cell) : Cell :=
  match c with
  | .scalar .null => .scalar (.str "Sem Registro")
  | .scalar (.str s) =>
    if s ∈ NULLS_PLACEHOLDERS_TO_DROP then .scalar (.str "Sem Registro") else c
  | c => c

/-- The table entering the groupby of line 234, together with the positions
of the aggregation column and of the principal key column: the input after
the List-Column Expander and the placeholder canonicalization. -/
def agg_base (t : Table) (colAgg : String) :
    Except String (Table × Nat × Nat) :=
  match t.colIdx colAgg, t.colIdx KEY_COLUMN_PRINCIPAL with
  | some i, some k =>
    match expander_step t colAgg with
    | .error e => .error e
    | .ok t₁ =>
      .ok (⟨t.header, t₁.rows.map (fun r => r.set i (canonicalCell (cellAt r i)))⟩,
           i, k)
  | _, _ => .error "KeyError"

/-- Distinct non-null key values among the rows whose aggregation-column cell
equals `cat` — the value of groupby(col)[key].nunique() for one group. -/
def distinctKeysInCategory (t : Table) (i k : Nat) (cat : Cell) : Nat :=
  (dedupFirst
    (((t.rows.filter (fun r => decide (cellAt r i = cat))).map (cellAt · k)).filter
      (fun c => !c.isNull))).length

/-- One row of an Aggregation Result: category, Contagem, Percentual. -/
structure AggRow where
  cat : Cell
  contagem : Nat
  percentual : ℚ
deriving DecidableEq, Repr

/-- prepare_agg_data (src/src/gui_components.py lines 195-243): expander step,
placeholder canonicalization, groupby with distinct-key counts, percentages.
pandas groupby raises TypeError when the grouped or counted values are
unhashable lists; group order here is first occurrence (pandas sorts group
keys: every verified statement is order-insensitive). -/
def prepare_agg_data (t : Table) (colAgg : String) :
    Except String (List AggRow) :=
  match agg_base t colAgg with
  | .error e => .error e
  | .ok (tb, i, k) =>
    if (tb.colAt i).any Cell.isList then
      .error "TypeError: unhashable type"
    else if (tb.colAt k).any Cell.isList then
      .error "TypeError: unhashable type"
    else
      let cats := dedupFirst (tb.colAt i)
      let pairs := cats.map (fun c => (c, distinctKeysInCategory tb i k c))
      let total : Nat := (pairs.map (·.2)).sum
      if 0 < total then
        .ok (pairs.map (fun p => ⟨p.1, p.2, (p.2 : ℚ) / (total : ℚ) * 100⟩))
      else
        .ok (pairs.map (fun p => ⟨p.1, p.2, 0⟩))

/-! ## Helper lemmas about the aggregator -/

theorem cellAt_set_self (r : List Cell) (i : Nat) (v : Cell) :
    cellAt (r.set i v) i = if i < r.length then v else Cell.scalar .null := by
  induction r generalizing i with
  | nil => simp [cellAt]
  | cons a r ih =>
    cases i with
    | zero => simp [cellAt]
    | succ n =>
      simpa [cellAt, List.length_cons, Nat.succ_lt_succ_iff] using ih n

theorem canonicalCell_not_placeholder (c : Cell) (p : String)
    (hp : p ∈ NULLS_PLACEHOLDERS_TO_DROP) :
    canonicalCell c ≠ Cell.scalar (.str p) := by
  have hsr : "Sem Registro" ∉ NULLS_PLACEHOLDERS_TO_DROP := by decide
  cases c with
  | scalar v =>
    cases v with
    | null =>
      intro h
      simp only [canonicalCell, Cell.scalar.injEq, Scalar.str.injEq] at h
      exact hsr (h ▸ hp)
    | str s =>
      by_cases hs : s ∈ NULLS_PLACEHOLDERS_TO_DROP
      · intro h
        simp only [canonicalCell, if_pos hs, Cell.scalar.injEq,
          Scalar.str.injEq] at h
        exact hsr (h ▸ hp)
      · intro h
        simp only [canonicalCell, if_neg hs, Cell.scalar.injEq,
          Scalar.str.injEq] at h
        exact hs (h ▸ hp)
    | num q => simp [canonicalCell]
    | time n => simp [canonicalCell]
    | boolean b => simp [canonicalCell]
  | list xs => simp [canonicalCell]

theorem sum_map_div_mul (l : List ℚ) (T : ℚ) :
    (l.map (fun x => x / T * 100)).sum = l.sum / T * 100 := by
  induction l with
  | nil => simp
  | cons a l ih =>
    simp only [List.map_cons, List.sum_cons, ih]
    ring

theorem natCast_list_sum (l : List Nat) :
    ((l.sum : Nat) : ℚ) = (l.map (fun (n : Nat) => (n : ℚ))).sum := by
  induction l with
  | nil => simp
  | cons a l ih => simp [ih]

/-- Shape of every successful aggregation: the result is the group/count/
percentage list computed from the canonicalized base table. -/
theorem prepare_agg_data_ok_elim (t : Table) (colAgg : String)
    (res : List AggRow) (h : prepare_agg_data t colAgg = .ok res) :
    ∃ (tb : Table) (i k : Nat), agg_base t colAgg = .ok (tb, i, k) ∧
      res =
        (let pairs : List (Cell × Nat) := (dedupFirst (tb.colAt i)).map
            (fun c => (c, distinctKeysInCategory tb i k c));
         let total : Nat := (pairs.map (·.2)).sum;
         if 0 < total then
           pairs.map (fun p => ⟨p.1, p.2, (p.2 : ℚ) / (total : ℚ) * 100⟩)
         else
           pairs.map (fun p => ⟨p.1, p.2, 0⟩)) := by
  unfold prepare_agg_data at h
  cases hab : agg_base t colAgg with
  | error e =>
    rw [hab] at h
    simp at h
  | ok x =>
    obtain ⟨tb, i, k⟩ := x
    rw [hab] at h
    dsimp only at h
    by_cases h₁ : (tb.colAt i).any Cell.isList = true
    · rw [if_pos h₁] at h; simp at h
    · rw [if_neg h₁] at h
      by_cases h₂ : (tb.colAt k).any Cell.isList = true
      · rw [if_pos h₂] at h; simp at h
      · rw [if_neg h₂] at h
        refine ⟨tb, i, k, rfl, ?_⟩
        dsimp only at h ⊢
        split at h <;> rename_i hsp
        · rw [if_pos hsp]
          exact (Except.ok.inj h).symm
        · rw [if_neg hsp]
          exact (Except.ok.inj h).symm

/-- Every cell of the aggregation column of the table that reaches the
groupby is the canonicalization of some input cell (or the null read off a
ragged row). -/
theorem agg_base_col_canonical (t : Table) (colAgg : String) (tb : Table)
    (i k : Nat) (hab : agg_base t colAgg = .ok (tb, i, k)) :
    ∀ c ∈ tb.colAt i, (∃ c₀, c = canonicalCell c₀) ∨ c = Cell.scalar .null := by
  unfold agg_base at hab
  split at hab
  · rename_i i' k' hci hck
    split at hab
    · simp at hab
    · rename_i t₁ hexp
      obtain ⟨h₁, h₂, h₃⟩ :
          (⟨t.header,
            t₁.rows.map (fun r => r.set i' (canonicalCell (cellAt r i')))⟩ :
              Table) = tb ∧ i' = i ∧ k' = k := by
        have := Except.ok.inj hab
        exact ⟨congrArg Prod.fst this, congrArg (fun x => x.2.1) this,
          congrArg (fun x => x.2.2) this⟩
      rw [h₂] at h₁
      intro c hc
      rw [← h₁] at hc
      simp only [Table.colAt, List.map_map, List.mem_map] at hc
      obtain ⟨r, _, hr⟩ := hc
      simp only [Function.comp] at hr
      rw [cellAt_set_self] at hr
      by_cases hlen : i < r.length
      · rw [if_pos hlen] at hr
        exact .inl ⟨cellAt r i, hr.symm⟩
      · rw [if_neg hlen] at hr
        exact .inr hr.symm
  · simp at hab

/-! ## Concrete tables used by witnesses and counterexamples -/

/-- Concrete scenario 1 of the spec: column Situação with two live values,
one duplicate and one null, and four distinct key ids. -/
def scenario1 : Table :=
  ⟨["Caso Id", "Situação"],
   [[.scalar (.str "k1"), .scalar (.str "Em Andamento")],
    [.scalar (.str "k2"), .scalar (.str "Em Andamento")],
    [.scalar (.str "k3"), .scalar (.str "Concluído")],
    [.scalar (.str "k4"), .scalar .null]]⟩

/-- scenario1 after placeholder canonicalization (what agg_base produces). -/
def scenario1Canon : Table :=
  ⟨["Caso Id", "Situação"],
   [[.scalar (.str "k1"), .scalar (.str "Em Andamento")],
    [.scalar (.str "k2"), .scalar (.str "Em Andamento")],
    [.scalar (.str "k3"), .scalar (.str "Concluído")],
    [.scalar (.str "k4"), .scalar (.str "Sem Registro")]]⟩

/-- The Aggregation Result the code computes for scenario 1. -/
def scenario1Res : List AggRow :=
  [⟨.scalar (.str "Em Andamento"), 2, 50⟩,
   ⟨.scalar (.str "Concluído"), 1, 25⟩,
   ⟨.scalar (.str "Sem Registro"), 1, 25⟩]

/-- A non-empty table whose key column holds only nulls: every group then
counts zero distinct keys. -/
def allNullKeysTable : Table :=
  ⟨["Caso Id", "Tipo"], [[.scalar .null, .scalar (.str "X")]]⟩

/-- A table whose explode-configured column holds a serialized-list string
that the literal parser rejects. -/
def unparseableTable : Table :=
  ⟨["Caso Id", "Tipo Penal"],
   [[.scalar (.str "k1"), .scalar (.str "[oops]")]]⟩

/-- A table whose explode-configured column holds only plain scalars. -/
def scalarOnlyTable : Table :=
  ⟨["Caso Id", "Tipo Penal"],
   [[.scalar (.str "k1"), .scalar (.str "roubo")],
    [.scalar (.str "k2"), .scalar .null]]⟩

/-- A scalar cell in the sense of the expander: not a native list and not a
serialized-list string (bracket-delimited text). -/
def scalarOnlyCell (c : Cell) : Bool :=
  !c.isList && !looksLikeListStr c

/-! ## Claim theorems: the Aggregator and the List-Column Expander -/

/-- C8: for a column whose non-null cells are all scalars (no native lists,
no serialized-list strings), the List-Column Expander is a no-op — the
output table is the input, with the same row count and cell values — so
applying the expander twice equals applying it once. -/
theorem C8_expander_noop (t : Table) (colAgg : String) (i : Nat)
    (hi : t.colIdx colAgg = some i)
    (hsc : ∀ r ∈ t.rows, scalarOnlyCell (cellAt r i) = true) :
    expander_step t colAgg = .ok t ∧
    (expander_step t colAgg).bind (fun t₂ => expander_step t₂ colAgg) =
      expander_step t colAgg := by
  have hnostr : (t.colAt i).any looksLikeListStr = false := by
    simp only [List.any_eq_false, Table.colAt, List.mem_map]
    rintro c ⟨r, hr, rfl⟩
    have := hsc r hr
    simp only [scalarOnlyCell, Bool.and_eq_true, Bool.not_eq_true',
      Bool.not_eq_true] at this
    simp [this.2]
  have hnolist : (t.colAt i).any Cell.isList = false := by
    simp only [List.any_eq_false, Table.colAt, List.mem_map]
    rintro c ⟨r, hr, rfl⟩
    have := hsc r hr
    simp only [scalarOnlyCell, Bool.and_eq_true, Bool.not_eq_true',
      Bool.not_eq_true] at this
    simp [this.1]
  have hmain : expander_step t colAgg = .ok t := by
    unfold expander_step
    by_cases hin : colAgg ∈ LIST_COLS_TO_EXPLODE
    · rw [if_pos hin, hi]
      dsimp only
      rw [hnostr]
      simp only [Bool.false_eq_true, if_false]
      have ht₂ : (⟨t.header, t.rows⟩ : Table) = t := by
        cases t; rfl
      rw [ht₂, hnolist]
      simp
    · rw [if_neg hin]
  refine ⟨hmain, ?_⟩
  rw [hmain]
  simpa [Except.bind] using hmain

/-- C8 witness: on a concrete scalar-only table the expander returns its
input unchanged. -/
theorem C8_witness :
    expander_step scalarOnlyTable "Tipo Penal" = .ok scalarOnlyTable :=
  (C8_expander_noop scalarOnlyTable "Tipo Penal" 1 rfl (by decide)).1

/-- C7 counterexample: on a cell whose serialized-list string fails to parse
("[oops]" is rejected by the literal parser), prepare_agg_data propagates an
exception instead of leaving the cell unchanged — the claim that the
expander never raises on an unparseable cell is false. -/
theorem C7_counterexample :
    literal_eval_list "[oops]" = none ∧
    prepare_agg_data unparseableTable "Tipo Penal" =
      .error "malformed node or string: [oops]" :=
  ⟨rfl, rfl⟩

/-- C7 (amended): the parse step of the List-Column Expander sends exactly
the string cells starting with an opening bracket through the safe
literal-structure parser, leaving every other cell unchanged; but a cell
whose literal fails to parse makes the parse step raise (the failing cell is
not left as its original string). -/
theorem C7_parse_step_behavior :
    (∀ (i : Nat) (rows : List (List Cell)) (r : List Cell) (s : String),
        r ∈ rows → cellAt r i = Cell.scalar (.str s) →
        strStartsWith s "[" = true → literal_eval_list s = none →
        ∃ e, parse_rows i rows = .error e) ∧
    (∀ c : Cell,
        (∀ s : String, c = Cell.scalar (.str s) → strStartsWith s "[" = false) →
        parseCellStep c = .ok c) := by
  constructor
  · intro i rows
    induction rows with
    | nil => intro r s hr; simp at hr
    | cons r₀ rs ih =>
      intro r s hr hcell hpre hfail
      rcases List.mem_cons.mp hr with rfl | hmem
      · refine ⟨"malformed node or string: " ++ s, ?_⟩
        unfold parse_rows
        rw [hcell]
        simp only [parseCellStep, hpre, if_true, hfail]
      · cases hp : parseCellStep (cellAt r₀ i) with
        | error e =>
          refine ⟨e, ?_⟩
          unfold parse_rows
          rw [hp]
        | ok c =>
          obtain ⟨e, he⟩ := ih r s hmem hcell hpre hfail
          refine ⟨e, ?_⟩
          unfold parse_rows
          rw [hp, he]
  · intro c hc
    cases c with
    | scalar v =>
      cases v with
      | str s =>
        have hns := hc s rfl
        simp [parseCellStep, hns]
      | null => rfl
      | num q => rfl
      | time n => rfl
      | boolean b => rfl
    | list xs => rfl

/-- C7 witness: the amended failure propagation at the concrete unparseable
table. -/
theorem C7_witness :
    ∃ e, parse_rows 1 unparseableTable.rows = .error e :=
  C7_parse_step_behavior.1 1 unparseableTable.rows
    [.scalar (.str "k1"), .scalar (.str "[oops]")] "[oops]"
    (by simp [unparseableTable]) rfl rfl rfl

/-- C5: every successful Aggregation Result has no category equal to a raw
placeholder token — placeholders and true nulls were merged into the
canonical "Sem Registro" label before grouping. -/
theorem C5_no_placeholder_categories (t : Table) (colAgg : String)
    (res : List AggRow) (h : prepare_agg_data t colAgg = .ok res) :
    ∀ row ∈ res, ∀ p ∈ NULLS_PLACEHOLDERS_TO_DROP,
      row.cat ≠ Cell.scalar (.str p) := by
  obtain ⟨tb, i, k, hab, hres⟩ := prepare_agg_data_ok_elim t colAgg res h
  have hcanon := agg_base_col_canonical t colAgg tb i k hab
  intro row hrow p hp
  have hcat : row.cat ∈ tb.colAt i := by
    dsimp only at hres
    subst hres
    split at hrow <;>
    · simp only [List.mem_map] at hrow
      obtain ⟨q, hq, rfl⟩ := hrow
      obtain ⟨c, hc, rfl⟩ := hq
      exact (mem_dedupFirst _ _).mp hc
  rcases hcanon row.cat hcat with ⟨c₀, hc₀⟩ | hnull
  · rw [hc₀]
    exact canonicalCell_not_placeholder c₀ p hp
  · rw [hnull]
    simp

/-- Evaluation of the aggregator on concrete scenario 1: the structural part
computes by definitional unfolding and the percentages are settled by exact
rational arithmetic. -/
theorem scenario1_eval :
    prepare_agg_data scenario1 "Situação" = .ok scenario1Res := by
  have h : prepare_agg_data scenario1 "Situação" =
      .ok [⟨.scalar (.str "Em Andamento"), 2, ((2 : Nat) : ℚ) / ((4 : Nat) : ℚ) * 100⟩,
           ⟨.scalar (.str "Concluído"), 1, ((1 : Nat) : ℚ) / ((4 : Nat) : ℚ) * 100⟩,
           ⟨.scalar (.str "Sem Registro"), 1, ((1 : Nat) : ℚ) / ((4 : Nat) : ℚ) * 100⟩] :=
    rfl
  rw [h]
  norm_num [scenario1Res]

/-- C5 witness: the concrete scenario-1 aggregation, whose categories avoid
every placeholder token. -/
theorem C5_witness :
    (⟨Cell.scalar (.str "Sem Registro"), 1, (25 : ℚ)⟩ : AggRow).cat ≠
      Cell.scalar (.str "nan") :=
  C5_no_placeholder_categories scenario1 "Situação" scenario1Res scenario1_eval
    ⟨Cell.scalar (.str "Sem Registro"), 1, (25 : ℚ)⟩
    (by simp [scenario1Res]) "nan" (by simp [NULLS_PLACEHOLDERS_TO_DROP])

/-- C4: the count of every row of a successful Aggregation Result equals the
number of distinct non-null key-column values among the rows of the
canonicalized (and possibly expanded) table falling in that category — not
the raw row count; and the code computes exactly the expected result on the
concrete scenario with values Em Andamento, Em Andamento, Concluído, null
over 4 distinct key ids. -/
theorem C4_distinct_key_counts :
    (∀ (t : Table) (colAgg : String) (tb : Table) (i k : Nat)
        (res : List AggRow),
        agg_base t colAgg = .ok (tb, i, k) →
        prepare_agg_data t colAgg = .ok res →
        ∀ row ∈ res, row.contagem = distinctKeysInCategory tb i k row.cat) ∧
    prepare_agg_data scenario1 "Situação" = .ok scenario1Res := by
  constructor
  · intro t colAgg tb i k res hab h row hrow
    obtain ⟨tb', i', k', hab', hres⟩ := prepare_agg_data_ok_elim t colAgg res h
    rw [hab] at hab'
    obtain ⟨h1, h2, h3⟩ : tb = tb' ∧ i = i' ∧ k = k' := by
      have hinj := Except.ok.inj hab'
      exact ⟨congrArg Prod.fst hinj, congrArg (fun x => x.2.1) hinj,
        congrArg (fun x => x.2.2) hinj⟩
    subst h1; subst h2; subst h3
    dsimp only at hres
    subst hres
    split at hrow <;>
    · simp only [List.mem_map] at hrow
      obtain ⟨q, hq, rfl⟩ := hrow
      obtain ⟨c, _, rfl⟩ := hq
      rfl
  · exact scenario1_eval

/-- C4 witness: the Em Andamento group of scenario 1 counts 2, the number of
distinct key ids among its rows in the canonicalized table. -/
theorem C4_witness :
    (⟨Cell.scalar (.str "Em Andamento"), 2, (50 : ℚ)⟩ : AggRow).contagem =
      distinctKeysInCategory scenario1Canon 1 0
        (Cell.scalar (.str "Em Andamento")) :=
  C4_distinct_key_counts.1 scenario1 "Situação" scenario1Canon 1 0 scenario1Res
    rfl scenario1_eval _ (by simp [scenario1Res])

/-- Exact percentage normalization: mapping count/total*100 over the group
pairs and summing gives exactly 100 whenever the total is positive. -/
theorem aggRows_sum_perc (pairs : List (Cell × Nat)) (T : Nat) (hT : 0 < T)
    (hsum : (pairs.map (·.2)).sum = T) :
    ((pairs.map (fun p =>
        (⟨p.1, p.2, (p.2 : ℚ) / (T : ℚ) * 100⟩ : AggRow))).map
      (·.percentual)).sum = 100 := by
  rw [List.map_map]
  have h1 : ((fun row : AggRow => row.percentual) ∘
      (fun p : Cell × Nat => (⟨p.1, p.2, (p.2 : ℚ) / (T : ℚ) * 100⟩ : AggRow))) =
      (fun x : ℚ => x / (T : ℚ) * 100) ∘
        (fun p : Cell × Nat => ((p.2 : Nat) : ℚ)) := rfl
  rw [h1, ← List.map_map, sum_map_div_mul]
  have h2 : (pairs.map (fun p : Cell × Nat => ((p.2 : Nat) : ℚ))).sum =
      ((T : Nat) : ℚ) := by
    rw [← hsum, natCast_list_sum, List.map_map]
    rfl

  rw [h2, div_self (Nat.cast_ne_zero.mpr hT.ne'), one_mul]

/-- C1 counterexample: a non-empty input table whose key column holds only
nulls gives an Aggregation Result whose percentages sum to 0, not 100 — the
claim as stated (percentages sum to 100 whenever the input is non-empty) is
false. -/
theorem C1_counterexample :
    allNullKeysTable.rows ≠ [] ∧
    prepare_agg_data allNullKeysTable "Tipo" =
      .ok [⟨.scalar (.str "X"), 0, 0⟩] ∧
    (([⟨Cell.scalar (.str "X"), 0, (0 : ℚ)⟩] : List AggRow).map
      (·.percentual)).sum ≠ 100 := by
  refine ⟨by simp [allNullKeysTable], rfl, by norm_num⟩

/-- C1 (amended): for every successful Aggregation Result, whenever the
total distinct-key count is positive the percentages sum to exactly 100, and
whenever the total count is 0 (zero input rows, or no non-null key values)
every percentage is 0 and no division by zero occurs. -/
theorem C1_percentage_normalization (t : Table) (colAgg : String)
    (res : List AggRow) (h : prepare_agg_data t colAgg = .ok res) :
    ((res.map (·.contagem)).sum ≠ 0 → (res.map (·.percentual)).sum = 100) ∧
    ((res.map (·.contagem)).sum = 0 → ∀ row ∈ res, row.percentual = 0) := by
  obtain ⟨tb, i, k, hab, hres⟩ := prepare_agg_data_ok_elim t colAgg res h
  dsimp only at hres
  by_cases hpos : 0 < (((dedupFirst (tb.colAt i)).map
      (fun c => (c, distinctKeysInCategory tb i k c))).map (·.2)).sum
  · rw [if_pos hpos] at hres
    subst hres
    constructor
    · intro _
      exact aggRows_sum_perc _ _ hpos rfl
    · intro hzero
      exfalso
      rw [List.map_map] at hzero
      have h0 : (((dedupFirst (tb.colAt i)).map
          (fun c => (c, distinctKeysInCategory tb i k c))).map (·.2)).sum = 0 := by
        simpa [Function.comp] using hzero
      omega
  · rw [if_neg hpos] at hres
    subst hres
    constructor
    · intro hne
      exfalso
      apply hne
      rw [List.map_map]
      have h0 : (((dedupFirst (tb.colAt i)).map
          (fun c => (c, distinctKeysInCategory tb i k c))).map (·.2)).sum = 0 := by
        omega
      simpa [Function.comp] using h0
    · intro _ row hrow
      simp only [List.mem_map] at hrow
      obtain ⟨p, _, rfl⟩ := hrow
      rfl

/-- C1 witness: the scenario-1 percentages sum to exactly 100. -/
theorem C1_witness :
    (scenario1Res.map (·.percentual)).sum = 100 :=
  (C1_percentage_normalization scenario1 "Situação" scenario1Res
    scenario1_eval).1 (by decide)

/-! ## Type Coercer (src/data_processing.py, apply_column_types
lines 165-243) -/

/-- Decimal digits of a natural number, with enough fuel (the number itself
bounds the digit count). -/
def natToStrAux : Nat → Nat → List Char
  | 0, _ => []
  | fuel + 1, n =>
    if n < 10 then [Char.ofNat (48 + n)]
    else natToStrAux fuel (n / 10) ++ [Char.ofNat (48 + n % 10)]

/-- Decimal string of a natural number. -/
def natToStr (n : Nat) : String :=
  String.mk (natToStrAux (n + 1) n)

/-- Canonical stringification of a rational (sign, numerator, and a slash
denominator when not integral); the verified statements never depend on the
exact spelling of a stringified number. -/
def ratToStr (q : ℚ) : String :=
  (if q.num < 0 then "-" else "") ++ natToStr q.num.natAbs ++
    (if q.den = 1 then "" else "/" ++ natToStr q.den)

/-- A single quote, written through its code point. -/
def squote : String :=
  String.mk [Char.ofNat 39]

/-- Python str() of a scalar (str(nan) is the text nan). -/
def pyStr : Scalar → String
  | .null => "nan"
  | .str s => s
  | .num q => ratToStr q
  | .time n => "ts" ++ (if n < 0 then "-" else "") ++ natToStr n.natAbs
  | .boolean b => if b then "True" else "False"

/-- Python repr() of a scalar inside a list display: strings are quoted. -/
def pyReprScalar (v : Scalar) : String :=
  match v with
  | .str s => squote ++ s ++ squote
  | v => pyStr v

/-- Python str() of a cell: scalars via str, list objects via the bracketed
display of their elements. -/
def pyStrCell (c : Cell) : String :=
  match c with
  | .scalar v => pyStr v
  | .list xs => "[" ++ String.intercalate ", " (xs.map pyReprScalar) ++ "]"

/-- The string conversion of apply_column_types line 194 (also the fallback
of line 238): fillna("") then .apply(str), so nulls become the empty string
and every other cell its universal stringification. -/
def convStringCell (c : Cell) : Cell :=
  if c.isNull then .scalar (.str "") else .scalar (.str (pyStrCell c))

/-- Digits of an unsigned decimal. -/
def digitsToNat (cs : List Char) : Option Nat :=
  if cs.isEmpty then none
  else if cs.all Char.isDigit then
    some (cs.foldl (fun acc c => acc * 10 + (c.toNat - 48)) 0)
  else none

/-- Strip leading and trailing spaces from a character list. -/
def trimChars (cs : List Char) : List Char :=
  ((cs.dropWhile (· = ' ')).reverse.dropWhile (· = ' ')).reverse

/-- The modelled best-effort numeric parse behind pd.to_numeric: optional
sign, decimal digits, optional fractional part; anything else fails. -/
def parseNumeric (s : String) : Option ℚ :=
  let cs := trimChars s.data
  let sign : Bool := cs.headD ' ' = '-'
  let cs := if cs.headD ' ' = '-' ∨ cs.headD ' ' = '+' then cs.tail else cs
  match cs.splitOn '.' with
  | [a] => (digitsToNat a).map (fun n => if sign then -(n : ℚ) else (n : ℚ))
  | [a, b] =>
    match digitsToNat a, digitsToNat b with
    | some ia, some fb =>
      let q : ℚ := (ia : ℚ) + (fb : ℚ) / ((10 : ℚ) ^ b.length)
      some (if sign then -q else q)
    | _, _ => none
  | _ => none

/-- pd.to_numeric with errors="coerce", cell by cell: numbers stay, booleans
become 0/1, timestamps their integer value, parseable strings their number,
anything else null.  (The series-level TypeError raised on list cells is
modelled at the column level in tryConvert.) -/
def toNumericCell : Cell → Cell
  | .scalar .null => .scalar .null
  | .scalar (.num q) => .scalar (.num q)
  | .scalar (.boolean b) => .scalar (.num (if b then 1 else 0))
  | .scalar (.time n) => .scalar (.num (n : ℚ))
  | .scalar (.str s) =>
    match parseNumeric s with
    | some q => .scalar (.num q)
    | none => .scalar .null
  | .list _ => .scalar .null

/-- The modelled best-effort date parse behind pd.to_datetime: an ISO-like
yyyy-mm-dd text becomes the integer y*10000+m*100+d, anything else fails. -/
def parseDateModel (s : String) : Option ℤ :=
  match s.data.splitOn '-' with
  | [y, m, d] =>
    match digitsToNat y, digitsToNat m, digitsToNat d with
    | some yn, some mn, some dn =>
      if 1 ≤ mn ∧ mn ≤ 12 ∧ 1 ≤ dn ∧ dn ≤ 31 then
        some ((yn : ℤ) * 10000 + mn * 100 + dn)
      else none
    | _, _, _ => none
  | _ => none

/-- pd.to_datetime with errors="coerce", cell by cell: timestamps stay,
numbers are read as epoch offsets, parseable strings become timestamps,
anything else null (NaT).  (The TypeError raised on list or boolean data is
modelled at the column level in tryConvert.) -/
def toDatetimeCell : Cell → Cell
  | .scalar .null => .scalar .null
  | .scalar (.time n) => .scalar (.time n)
  | .scalar (.num q) => .scalar (.time q.floor)
  | .scalar (.str s) =>
    match parseDateModel s with
    | some n => .scalar (.time n)
    | none => .scalar .null
  | _ => .scalar .null

/-- Whether the cell is a python bool. -/
def Cell.isBoolean : Cell → Bool
  | .scalar (.boolean _) => true
  | _ => false

/-- The fixed token table of apply_column_types lines 221-230. -/
def bool_map : List (String × Bool) :=
  [("true", true), ("false", false), ("1", true), ("0", false),
   ("yes", true), ("no", false), ("sim", true), ("nao", false)]

/-- Lowercasing, character by character. -/
def strLower (s : String) : String :=
  String.mk (s.data.map Char.toLower)

/-- The boolean conversion of lines 219-233: astype(str).str.lower() then a
lookup in the fixed token table; unmapped tokens become null. -/
def toBooleanCell (c : Cell) : Cell :=
  match bool_map.lookup (strLower (pyStrCell c)) with
  | some b => .scalar (.boolean b)
  | none => .scalar .null

/-- The body of the try block of apply_column_types for one column: the new
cells and the log entries it appends, or the exception it raises.  Unknown
target types fall through every branch: no change and no log entry. -/
def tryConvert (col ty : String) (cells : List Cell) :
    Except String (List Cell × List String) :=
  if ty = "string" then
    .ok (cells.map convStringCell, ["✅ " ++ col ++ ": convertido para string"])
  else if ty = "numeric" then
    if cells.any Cell.isList then .error "Invalid object type"
    else
      let original_nulls := (cells.filter Cell.isNull).length
      let cells₂ := cells.map toNumericCell
      let new_nulls := (cells₂.filter Cell.isNull).length
      let lost := new_nulls - original_nulls
      .ok (cells₂,
        [if 0 < lost then
          "⚠️ " ++ col ++ ": convertido para numérico (" ++ natToStr lost ++
            " valores perdidos)"
         else "✅ " ++ col ++ ": convertido para numérico"])
  else if ty = "datetime" then
    if cells.any (fun c => c.isList || c.isBoolean) then
      .error "is not convertible to datetime"
    else
      let original_nulls := (cells.filter Cell.isNull).length
      let cells₂ := cells.map toDatetimeCell
      let new_nulls := (cells₂.filter Cell.isNull).length
      let lost := new_nulls - original_nulls
      .ok (cells₂,
        [if 0 < lost then
          "⚠️ " ++ col ++ ": convertido para datetime (" ++ natToStr lost ++
            " valores perdidos)"
         else "✅ " ++ col ++ ": convertido para datetime"])
  else if ty = "boolean" then
    .ok (cells.map toBooleanCell,
      ["✅ " ++ col ++ ": convertido para boolean"])
  else .ok (cells, [])

/-- The failure entry of lines 239-241, carrying the error message. -/
def failMsg (col e : String) : String :=
  "❌ " ++ col ++ ": erro na conversão, mantido como string - " ++ e

/-- Write a column back into the rows at position `i`. -/
def setColumn (rows : List (List Cell)) (i : Nat) (cells : List Cell) :
    List (List Cell) :=
  List.zipWith (fun r c => r.set i c) rows cells

/-- One iteration of the conversion loop of lines 185-241: a mapping entry
for an absent column is skipped; otherwise the try body runs and, on an
exception, the column falls back to the stringification and the failure
entry is logged — the exception never escapes the loop. -/
def apply_one (st : Table × List String) (e : String × String) :
    Table × List String :=
  match st.1.colIdx e.1 with
  | none => st
  | some i =>
    let cells := st.1.colAt i
    match tryConvert e.1 e.2 cells with
    | .ok (cells₂, entries) =>
      (⟨st.1.header, setColumn st.1.rows i cells₂⟩, st.2 ++ entries)
    | .error err =>
      (⟨st.1.header, setColumn st.1.rows i (cells.map convStringCell)⟩,
       st.2 ++ [failMsg e.1 err])

/-- apply_column_types (data_processing.py lines 165-243): fold the
conversion loop over the mapping entries, starting from a copy of the input
(reset_index(drop=True) leaves rows and columns unchanged) and an empty
conversion log. -/
def apply_column_types (t : Table) (m : List (String × String)) :
    Table × List String :=
  m.foldl apply_one (t, [])

/-! ## Helper lemmas about the Type Coercer -/

theorem tryConvert_ok_length (col ty : String) (cells cells₂ : List Cell)
    (log : List String) (h : tryConvert col ty cells = .ok (cells₂, log)) :
    cells₂.length = cells.length := by
  unfold tryConvert at h
  split_ifs at h <;> (try dsimp only at h) <;>
    first
    | exact Except.noConfusion h
    | (obtain ⟨h₁, _⟩ := Prod.mk.inj (Except.ok.inj h)
       subst h₁
       simp)

theorem setColumn_length (rows : List (List Cell)) (i : Nat)
    (cells : List Cell) (h : cells.length = rows.length) :
    (setColumn rows i cells).length = rows.length := by
  simp [setColumn, h]

theorem apply_one_header (st : Table × List String) (e : String × String) :
    (apply_one st e).1.header = st.1.header := by
  unfold apply_one
  split
  · rfl
  · dsimp only
    split <;> rfl

theorem apply_one_rows_length (st : Table × List String)
    (e : String × String) :
    (apply_one st e).1.rows.length = st.1.rows.length := by
  unfold apply_one
  split
  · rfl
  · rename_i i hci
    dsimp only
    split
    · rename_i cells₂ log htc
      exact setColumn_length _ _ _
        ((tryConvert_ok_length _ _ _ _ _ htc).trans (by simp [Table.colAt]))
    · exact setColumn_length _ _ _ (by simp [Table.colAt])

theorem foldl_apply_one_rows_length (m : List (String × String))
    (st : Table × List String) :
    (m.foldl apply_one st).1.rows.length = st.1.rows.length := by
  induction m generalizing st with
  | nil => rfl
  | cons e m ih => rw [List.foldl_cons, ih, apply_one_rows_length]

theorem foldl_apply_one_header (m : List (String × String))
    (st : Table × List String) :
    (m.foldl apply_one st).1.header = st.1.header := by
  induction m generalizing st with
  | nil => rfl
  | cons e m ih => rw [List.foldl_cons, ih, apply_one_header]

theorem cellAt_set_ne (r : List Cell) (i j : Nat) (v : Cell) (hij : i ≠ j) :
    cellAt (r.set i v) j = cellAt r j := by
  induction r generalizing i j with
  | nil => simp [cellAt]
  | cons a r ih =>
    cases i with
    | zero =>
      cases j with
      | zero => exact absurd rfl hij
      | succ n => simp [cellAt]
    | succ m =>
      cases j with
      | zero => simp [cellAt]
      | succ n =>
        simp only [List.set_cons_succ, cellAt, List.getD_cons_succ]
        exact ih m n (fun h => hij (by rw [h]))

theorem cellAt_set_self_same (r : List Cell) (j : Nat) :
    cellAt (r.set j (cellAt r j)) j = cellAt r j := by
  rw [cellAt_set_self]
  by_cases hlen : j < r.length
  · rw [if_pos hlen]
  · rw [if_neg hlen]
    simp only [cellAt]
    rw [List.getD_eq_default]
    omega

theorem setColumn_colAt_ne (rows : List (List Cell)) (i j : Nat)
    (cells : List Cell) (hlen : cells.length = rows.length) (hij : i ≠ j) :
    (setColumn rows i cells).map (cellAt · j) = rows.map (cellAt · j) := by
  induction rows generalizing cells with
  | nil => simp [setColumn]
  | cons r rows ih =>
    cases cells with
    | nil => simp at hlen
    | cons c cells =>
      simp only [setColumn, List.zipWith_cons_cons, List.map_cons]
      rw [cellAt_set_ne r i j c hij]
      have := ih cells (by simpa using hlen)
      simp only [setColumn] at this
      rw [this]

theorem setColumn_colAt_self (rows : List (List Cell)) (j : Nat) :
    (setColumn rows j (rows.map (cellAt · j))).map (cellAt · j) =
      rows.map (cellAt · j) := by
  induction rows with
  | nil => simp [setColumn]
  | cons r rows ih =>
    simp only [setColumn, List.map_cons, List.zipWith_cons_cons]
    rw [cellAt_set_self_same]
    simp only [setColumn] at ih
    rw [ih]

/-- The known target types of the conversion loop. -/
def knownTypes : List String := ["string", "numeric", "datetime", "boolean"]

/-- The conversion step for an entry leaves the column at position `j`
unchanged unless the entry names that very position with a known target
type. -/
theorem apply_one_colAt_preserved (st : Table × List String)
    (e : String × String) (j : Nat)
    (h : idxOfName st.1.header e.1 = some j → e.2 ∈ knownTypes → False) :
    (apply_one st e).1.colAt j = st.1.colAt j := by
  unfold apply_one
  cases hci : st.1.colIdx e.1 with
  | none => rfl
  | some i =>
    dsimp only
    by_cases hij : i = j
    · subst hij
      have hty : e.2 ∉ knownTypes := fun hk => h hci hk
      have htc : tryConvert e.1 e.2 (st.1.colAt i) = .ok (st.1.colAt i, []) := by
        unfold tryConvert
        simp only [knownTypes, List.mem_cons, List.not_mem_nil, or_false,
          not_or] at hty
        rw [if_neg hty.1, if_neg hty.2.1, if_neg hty.2.2.1, if_neg hty.2.2.2]
      rw [htc]
      dsimp only [Table.colAt]
      exact setColumn_colAt_self st.1.rows i
    · split
      · rename_i cells₂ log htc
        dsimp only [Table.colAt]
        exact setColumn_colAt_ne _ i j _
          ((tryConvert_ok_length _ _ _ _ _ htc).trans (by simp [Table.colAt]))
          hij
      · dsimp only [Table.colAt]
        exact setColumn_colAt_ne _ i j _ (by simp [Table.colAt]) hij

/-- Folding the conversion loop preserves the column at `j` as long as no
mapping entry touches position `j` with a known target type. -/
theorem foldl_apply_one_colAt_preserved (m : List (String × String))
    (st : Table × List String) (j : Nat)
    (h : ∀ e ∈ m, idxOfName st.1.header e.1 = some j → e.2 ∈ knownTypes →
      False) :
    (m.foldl apply_one st).1.colAt j = st.1.colAt j := by
  induction m generalizing st with
  | nil => rfl
  | cons e m ih =>
    rw [List.foldl_cons]
    have hhd : (apply_one st e).1.header = st.1.header := apply_one_header st e
    rw [ih (apply_one st e) (fun e' he' => by rw [hhd]; exact h e' (.tail _ he')),
      apply_one_colAt_preserved st e j (h e (.head _))]

/-- In a mapping whose keys are distinct, any entry sharing the key of a
member equals that member. -/
theorem eq_of_mem_nodup_keys (m : List (String × String))
    (hnd : (m.map Prod.fst).Nodup) (c ty : String) (hcm : (c, ty) ∈ m)
    (e : String × String) (he : e ∈ m) (hk : e.1 = c) : e = (c, ty) := by
  induction m with
  | nil => simp at hcm
  | cons a m ih =>
    simp only [List.map_cons, List.nodup_cons] at hnd
    rcases List.mem_cons.mp hcm with rfl | hcm₂
    · rcases List.mem_cons.mp he with rfl | he₂
      · rfl
      · have hmem : c ∈ m.map Prod.fst := by
          rw [← hk]
          exact List.mem_map_of_mem Prod.fst he₂
        exact absurd hmem (by simpa using hnd.1)
    · rcases List.mem_cons.mp he with rfl | he₂
      · have hmem : e.1 ∈ m.map Prod.fst := by
          rw [hk]
          exact List.mem_map_of_mem Prod.fst hcm₂
        exact absurd hmem hnd.1
      · exact ih hnd.2 hcm₂ he₂

/-! ## Claim theorems: the Type Coercer -/

/-- C2: the Type Coercer returns a table with exactly as many rows as its
input, for every table and type mapping — coercion never drops rows. -/
theorem C2_coercion_row_count (t : Table) (m : List (String × String)) :
    (apply_column_types t m).1.rows.length = t.rows.length :=
  foldl_apply_one_rows_length m (t, [])

/-- The log grows by a suffix at each conversion step. -/
theorem apply_one_log_append (st : Table × List String)
    (e : String × String) : ∃ l, (apply_one st e).2 = st.2 ++ l := by
  unfold apply_one
  split
  · exact ⟨[], (List.append_nil _).symm⟩
  · dsimp only
    split
    · rename_i cells₂ entries htc
      exact ⟨entries, rfl⟩
    · rename_i err htc
      exact ⟨[failMsg e.1 err], rfl⟩

/-- The log accumulated before a fold of the conversion loop is a prefix of
the log after it. -/
theorem foldl_log_append (m : List (String × String))
    (st : Table × List String) :
    ∃ l, (m.foldl apply_one st).2 = st.2 ++ l := by
  induction m generalizing st with
  | nil => exact ⟨[], (List.append_nil _).symm⟩
  | cons e m ih =>
    rw [List.foldl_cons]
    obtain ⟨l₁, h₁⟩ := apply_one_log_append st e
    obtain ⟨l₂, h₂⟩ := ih (apply_one st e)
    exact ⟨l₁ ++ l₂, by rw [h₂, h₁, List.append_assoc]⟩

/-- C6: when the conversion of a column raises, the Type Coercer forces that
column to the string fallback (universal stringification, nulls becoming the
empty string), appends the failure entry carrying the error message to the
Conversion Log, and continues folding the remaining mapping entries — the
exception never escapes apply_column_types. -/
theorem C6_conversion_error_policy (t : Table)
    (pre post : List (String × String)) (col ty : String) (i : Nat)
    (err : String)
    (hidx : (apply_column_types t pre).1.colIdx col = some i)
    (herr : tryConvert col ty ((apply_column_types t pre).1.colAt i) =
      .error err) :
    apply_column_types t (pre ++ (col, ty) :: post) =
      List.foldl apply_one
        (⟨(apply_column_types t pre).1.header,
          setColumn (apply_column_types t pre).1.rows i
            (((apply_column_types t pre).1.colAt i).map convStringCell)⟩,
         (apply_column_types t pre).2 ++ [failMsg col err]) post ∧
    failMsg col err ∈ (apply_column_types t (pre ++ (col, ty) :: post)).2 := by
  have hsplit : apply_column_types t (pre ++ (col, ty) :: post) =
      List.foldl apply_one
        (apply_one (apply_column_types t pre) (col, ty)) post := by
    unfold apply_column_types
    rw [List.foldl_append, List.foldl_cons]
  have hstep : apply_one (apply_column_types t pre) (col, ty) =
      (⟨(apply_column_types t pre).1.header,
        setColumn (apply_column_types t pre).1.rows i
          (((apply_column_types t pre).1.colAt i).map convStringCell)⟩,
       (apply_column_types t pre).2 ++ [failMsg col err]) := by
    unfold apply_one
    dsimp only
    rw [hidx]
    dsimp only
    rw [herr]
  rw [hsplit, hstep]
  refine ⟨rfl, ?_⟩
  obtain ⟨l₂, hl₂⟩ := foldl_log_append post _
  rw [hl₂]
  exact List.mem_append_left _
    (List.mem_append_right _ (List.mem_singleton.mpr rfl))

/-- A table whose first column holds a list cell, on which pd.to_numeric
raises. -/
def C6table : Table :=
  ⟨["a", "b"], [[.list [.str "x"], .scalar (.str "y")]]⟩

/-- C6 witness: the failure entry (with the error message) lands in the log
while the following column is still converted. -/
theorem C6_witness :
    failMsg "a" "Invalid object type" ∈
      (apply_column_types C6table [("a", "numeric"), ("b", "string")]).2 :=
  (C6_conversion_error_policy C6table [] [("b", "string")] "a" "numeric" 0
    "Invalid object type" rfl rfl).2

/-- C10: the Type Coercer keeps exactly the input's column names in the
input's order; a column whose name is not in the mapping is unchanged (same
cells in the same row order), and so is a mapped column whose target type is
none of string/numeric/datetime/boolean. -/
theorem C10_frame_effect (t : Table) (m : List (String × String)) :
    (apply_column_types t m).1.header = t.header ∧
    (∀ (c : String) (j : Nat), t.colIdx c = some j →
      (∀ ty, (c, ty) ∉ m) →
      (apply_column_types t m).1.colAt j = t.colAt j) ∧
    (∀ (c : String) (j : Nat) (ty : String), t.colIdx c = some j →
      (c, ty) ∈ m → (m.map Prod.fst).Nodup → ty ∉ knownTypes →
      (apply_column_types t m).1.colAt j = t.colAt j) := by
  refine ⟨foldl_apply_one_header m (t, []), ?_, ?_⟩
  · intro c j hcj habs
    apply foldl_apply_one_colAt_preserved
    intro e he hej _
    apply habs e.2
    have h₁ := idxOfName_getD _ _ _ hej
    have h₂ := idxOfName_getD _ _ _ hcj
    have hec : e.1 = c := h₁.symm.trans h₂
    rw [← hec]
    exact he
  · intro c j ty hcj hmem hnd hty
    apply foldl_apply_one_colAt_preserved
    intro e he hej hk
    have h₁ := idxOfName_getD _ _ _ hej
    have h₂ := idxOfName_getD _ _ _ hcj
    have hec : e.1 = c := h₁.symm.trans h₂
    have heq : e = (c, ty) := eq_of_mem_nodup_keys m hnd c ty hmem e he hec
    rw [heq] at hk
    exact hty hk

/-- A two-column table used to exercise the frame conditions. -/
def C10table : Table :=
  ⟨["a", "b"], [[.scalar (.str "u"), .scalar (.str "v")]]⟩

/-- C10 witness: with a single mapping entry of unknown target type, both
the unmapped column and the mapped column come out unchanged. -/
theorem C10_witness :
    (apply_column_types C10table [("a", "weird")]).1.colAt 1 =
        C10table.colAt 1 ∧
      (apply_column_types C10table [("a", "weird")]).1.colAt 0 =
        C10table.colAt 0 :=
  ⟨(C10_frame_effect C10table [("a", "weird")]).2.1 "b" 1 rfl
      (fun ty h => by simp at h),
   (C10_frame_effect C10table [("a", "weird")]).2.2 "a" 0 "weird" rfl
      (by simp) (by simp) (by decide)⟩

/-! ## Type Profiler (src/data_processing.py, detect_column_types
lines 94-163) -/

/-- The per-column profile record (the original_dtype presentation tag of the
source is not modelled; every other field of the info dict is).
null_percent is an Option: `some` is a finite float value, `none` stands for
the non-finite float (NaN) that the division (null_count / len(df)) * 100
produces when the row count is zero — numpy emits a warning and yields NaN
rather than raising. -/
structure ColumnProfile where
  null_count : Nat
  null_percent : Option ℚ
  unique_count : Int
  sample_values : List String
  can_be_numeric : Bool
  can_be_datetime : Bool
  numeric_success_rate : ℚ
  datetime_success_rate : ℚ
deriving DecidableEq, Repr

/-- The profile of one column (data_processing.py lines 106-161): null
statistics, distinct count (-1 when the cells are unhashable), a 5-value
sample, and the numeric / datetime probe success rates, each probe swallowed
into a zero rate when the library call raises. -/
def profileColumn (cells : List Cell) (nrows : Nat) : ColumnProfile :=
  let null_count := (cells.filter Cell.isNull).length
  let null_percent : Option ℚ :=
    if nrows = 0 then none
    else some ((null_count : ℚ) / (nrows : ℚ) * 100)
  let unique_count : Int :=
    if cells.any Cell.isList then -1
    else ((dedupFirst (cells.filter (fun c => !c.isNull))).length : Int)
  let non_null := cells.filter (fun c => !c.isNull)
  let sample_values := (non_null.take 5).map pyStrCell
  let numeric_success_rate : ℚ :=
    if non_null.length = 0 then 0
    else if non_null.any Cell.isList then 0
    else ((((non_null.map toNumericCell).filter
        (fun c => !c.isNull)).length : ℚ) / (non_null.length : ℚ)) * 100
  let can_be_numeric := 70 < numeric_success_rate
  let datetime_success_rate : ℚ :=
    if non_null.length = 0 then 0
    else if ¬numeric_success_rate < 50 then 0
    else
      let sample := non_null.take 100
      if sample.any (fun c => c.isList || c.isBoolean) then 0
      else ((((sample.map toDatetimeCell).filter
          (fun c => !c.isNull)).length : ℚ) / (sample.length : ℚ)) * 100
  let can_be_datetime := 70 < datetime_success_rate
  ⟨null_count, null_percent, unique_count, sample_values,
   can_be_numeric, can_be_datetime, numeric_success_rate,
   datetime_success_rate⟩

/-- detect_column_types (data_processing.py lines 94-163): one profile per
column, keyed by the column name. -/
def detect_column_types (t : Table) : List (String × ColumnProfile) :=
  (List.range t.header.length).map
    (fun i => (t.header.getD i "", profileColumn (t.colAt i) t.rows.length))

/-- C9 (the code at the failing input): profiling a table with zero rows
computes (0 / 0) * 100 for the null percentage, whose float value is the
non-finite NaN — not the 0 the specification defines — while the sibling
display functions guard the empty case and report 0. -/
theorem C9_empty_table_null_percent :
    (detect_column_types ⟨["a"], []⟩).map (fun p => (p.1, p.2.null_percent)) =
      [("a", none)] ∧
    (∀ q : ℚ, (none : Option ℚ) ≠ some q) := by
  exact ⟨rfl, fun q h => Option.noConfusion h⟩

/-! ## Relation Reconciler (src/data_processing.py,
aggregate_column_to_list lines 393-424, merge_dataframes lines 426-458, and
the pack+join steps of pipeline_tratatamento_dados lines 630-632) -/

/-- pandas GroupBy.first: the first NON-NULL entry of the group (NaN when
every entry is null) — note this skips nulls, it is not the first row's
value. -/
def firstNonNull (cells : List Cell) : Cell :=
  match cells.filter (fun c => !c.isNull) with
  | [] => .scalar .null
  | c :: _ => c

/-- Scalar content of a cell collected into a packed list (the model keeps
lists flat: no verified input packs a list-valued aggregate column). -/
def asScalar : Cell → Scalar
  | .scalar v => v
  | .list _ => .null

/-- The rows of a table whose key cell (at position ci) equals `k` — one
group of the groupby. -/
def groupRows (t : Table) (ci : Nat) (k : Cell) : List (List Cell) :=
  t.rows.filter (fun r => decide (cellAt r ci = k))

/-- The non-key, non-aggregate columns, in original order — the keys of the
agg_rules dict of data_processing.py lines 416-418. -/
def packOthers (t : Table) (key_column column_to_aggregate : String) :
    List String :=
  t.header.filter
    (fun c => decide (c ≠ key_column) && decide (c ≠ column_to_aggregate))

/-- The group keys of the pack step: the distinct non-null key cells (pandas
groupby drops null keys), in first-occurrence order (pandas sorts group
keys; the verified statements are insensitive to the order of the packed
rows). -/
def packKeys (t : Table) (ki : Nat) : List Cell :=
  dedupFirst ((t.rows.map (cellAt · ki)).filter (fun c => !c.isNull))

/-- One packed row: the key, the first non-null value of every other column
over the key's group, then the whole aggregate column of the group collected
into a list (row order, duplicates kept). -/
def packRowFn (t : Table) (key_column column_to_aggregate : String)
    (ki ai : Nat) (k : Cell) : List Cell :=
  k :: ((packOthers t key_column column_to_aggregate).map (fun c =>
      match idxOfName t.header c with
      | some cj => firstNonNull ((groupRows t ki k).map (cellAt · cj))
      | none => Cell.scalar .null)) ++
    [Cell.list ((groupRows t ki k).map (fun r => asScalar (cellAt r ai)))]

/-- aggregate_column_to_list (data_processing.py lines 393-424): group by
the key column, pack the aggregate column into lists and keep the first
non-null value of the other columns; the result header is the key, then the
other columns in original order, then the aggregate column (agg dict order
with the key reset from the index).  A missing key or aggregate column
raises ValueError. -/
def packedTable (t : Table) (key_column column_to_aggregate : String)
    (ki ai : Nat) : Table :=
  ⟨key_column :: packOthers t key_column column_to_aggregate ++
      [column_to_aggregate],
   (packKeys t ki).map (packRowFn t key_column column_to_aggregate ki ai)⟩

def aggregate_column_to_list (t : Table)
    (key_column column_to_aggregate : String) : Except String Table :=
  match t.colIdx key_column, t.colIdx column_to_aggregate with
  | some ki, some ai =>
    .ok (packedTable t key_column column_to_aggregate ki ai)
  | _, _ =>
    .error "A coluna chave ou a coluna de agregação não existem no DataFrame."

/-- The positions of the right table's columns other than the join key —
the columns a merge carries over from the right side. -/
def mergeKeep (r : Table) (key_column : String) : List Nat :=
  (List.range r.header.length).filter
    (fun j => decide (r.header.getD j "" ≠ key_column))

/-- merge_dataframes (data_processing.py lines 426-458) for the joins the
repository exercises (left and inner): for each left row, one output row per
matching right row (pandas matches null keys with null keys), the left cells
followed by the right row's non-key cells; a left row without a match
survives a left join with nulls in the right columns.  Suffixing of
overlapping non-key column names and the right/outer joins are not needed by
any verified statement and are left out of the model.  A key column missing
on either side raises ValueError. -/
def merge_dataframes (df_left df_right : Table) (key_column : String)
    (how : String) : Except String Table :=
  match df_left.colIdx key_column, df_right.colIdx key_column with
  | some li, some ri =>
    let rKeep := mergeKeep df_right key_column
    let header := df_left.header ++
      df_right.header.filter (fun c => decide (c ≠ key_column))
    if how = "left" then
      .ok ⟨header,
        (df_left.rows.map (fun lr =>
          match df_right.rows.filter
              (fun rr => decide (cellAt rr ri = cellAt lr li)) with
          | [] => [lr ++ rKeep.map (fun _ => Cell.scalar .null)]
          | ms => ms.map (fun rr => lr ++ rKeep.map (fun j => cellAt rr j)))
         ).flatten⟩
    else if how = "inner" then
      .ok ⟨header,
        (df_left.rows.map (fun lr =>
          (df_right.rows.filter
              (fun rr => decide (cellAt rr ri = cellAt lr li))).map
            (fun rr => lr ++ rKeep.map (fun j => cellAt rr j)))).flatten⟩
    else .error "merge how not modelled"
  | _, _ =>
    .error ("A coluna chave " ++ squote ++ key_column ++ squote ++
      " não foi encontrada em ambos os DataFrames.")

/-- The pack+join composition of pipeline_tratatamento_dados lines 630-632:
pack the complementary table, then left-join it onto the principal table. -/
def reconcile (df_principal df_complementar : Table)
    (key aggcol : String) : Except String Table :=
  match aggregate_column_to_list df_complementar key aggcol with
  | .error e => .error e
  | .ok packed => merge_dataframes df_principal packed key "left"

/-! ## Helper lemmas about lists, used by the reconciler proof -/

theorem filter_of_map {α β : Type} (f : α → β) (p : β → Bool) (l : List α) :
    (l.map f).filter p = (l.filter (fun x => p (f x))).map f := by
  induction l with
  | nil => rfl
  | cons a l ih =>
    simp only [List.map_cons, List.filter_cons]
    cases hpa : p (f a) <;> simp [hpa, ih]

theorem filter_eq_single_of_nodup {α : Type} [DecidableEq α] (l : List α)
    (hnd : l.Nodup) (k : α) :
    l.filter (fun x => decide (x = k)) = if k ∈ l then [k] else [] := by
  induction l with
  | nil => simp
  | cons a l ih =>
    rw [List.nodup_cons] at hnd
    by_cases hak : a = k
    · subst hak
      have hnil : l.filter (fun x => decide (x = a)) = [] := by
        rw [ih hnd.2, if_neg hnd.1]
      simp [List.filter_cons, hnil]
    · have hmem : (k ∈ a :: l) ↔ (k ∈ l) := by
        simp only [List.mem_cons, or_iff_right_iff_imp]
        intro hk
        exact absurd hk.symm hak
      simp [List.filter_cons, hak, ih hnd.2, hmem]

theorem flatten_singletons {α β : Type} (g : α → β) (l : List α) :
    (l.map (fun x => [g x])).flatten = l.map g := by
  induction l <;> simp [*]

theorem getD_map_lt {α β : Type} (g : α → β) (l : List α) (n : Nat)
    (h : n < l.length) (d : α) (dg : β) :
    (l.map g).getD n dg = g (l.getD n d) := by
  rw [List.getD_eq_getElem (l.map g) dg (by simpa using h),
      List.getD_eq_getElem l d h]
  simp

theorem range_map_getD {α : Type} (l : List α) (d : α) :
    (List.range l.length).map (fun j => l.getD j d) = l := by
  induction l with
  | nil => simp
  | cons a l ih =>
    rw [List.length_cons, List.range_succ_eq_map, List.map_cons,
      List.map_map]
    congr 1

theorem getD_const_null {α : Type} (l : List α) (n : Nat) :
    (l.map (fun _ => Cell.scalar Scalar.null)).getD n
      (Cell.scalar .null) = Cell.scalar .null := by
  induction l generalizing n with
  | nil => simp
  | cons a l ih => cases n <;> simp [ih]

theorem idxOfName_lt (l : List String) (c : String) (j : Nat)
    (h : idxOfName l c = some j) : j < l.length := by
  induction l generalizing j with
  | nil => simp [idxOfName] at h
  | cons a l ih =>
    by_cases hac : a = c
    · rw [idxOfName, if_pos hac] at h
      obtain rfl := Option.some.inj h
      simp
    · rw [idxOfName, if_neg hac] at h
      cases hrec : idxOfName l c with
      | none => rw [hrec] at h; simp at h
      | some j₀ =>
        rw [hrec] at h
        obtain rfl : j₀ + 1 = j := Option.some.inj h
        have := ih j₀ hrec
        simp only [List.length_cons]
        omega

theorem mem_packKeys (t : Table) (ci : Nat) (k : Cell) :
    k ∈ packKeys t ci ↔ k.isNull = false ∧ k ∈ t.colAt ci := by
  rw [packKeys, mem_dedupFirst, List.mem_filter]
  rw [Table.colAt]
  rw [Bool.not_eq_true']
  exact and_comm

/-- The row the left join produces for one principal row: the principal
cells followed by the packed row's non-key cells when the principal key has
a pack group, or by nulls when it has none. -/
def joinRowFn (comp : Table) (key aggcol : String) (pi ci ai : Nat)
    (lr : List Cell) : List Cell :=
  if cellAt lr pi ∈ packKeys comp ci then
    lr ++ (mergeKeep (packedTable comp key aggcol ci ai) key).map
      (fun j => cellAt (packRowFn comp key aggcol ci ai (cellAt lr pi)) j)
  else
    lr ++ (mergeKeep (packedTable comp key aggcol ci ai) key).map
      (fun _ => Cell.scalar .null)

/-- The non-key column positions of the packed table are exactly 1 through
the number of other columns plus one (the key sits at position 0). -/
theorem mergeKeep_packed (comp : Table) (key aggcol : String) (ci ai : Nat)
    (hka : key ≠ aggcol) :
    mergeKeep (packedTable comp key aggcol ci ai) key =
      (List.range ((packOthers comp key aggcol ++ [aggcol]).length)).map
        Nat.succ := by
  unfold mergeKeep packedTable
  simp only [List.cons_append]
  rw [show (key :: (packOthers comp key aggcol ++ [aggcol])).length =
      (packOthers comp key aggcol ++ [aggcol]).length + 1 from by simp]
  rw [List.range_succ_eq_map, List.filter_cons]
  have h0 : (decide
      ((key :: (packOthers comp key aggcol ++ [aggcol])).getD 0 "" ≠ key)) =
      false := by simp
  rw [h0]
  simp only [Bool.false_eq_true, if_false]
  rw [filter_of_map]
  have hall : ∀ j ∈ List.range (packOthers comp key aggcol ++ [aggcol]).length,
      (decide ((key :: (packOthers comp key aggcol ++ [aggcol])).getD
        (Nat.succ j) "" ≠ key)) = true := by
    intro j hj
    rw [List.mem_range] at hj
    show (decide ((key :: (packOthers comp key aggcol ++ [aggcol])).getD
      (j + 1) "" ≠ key)) = true
    rw [List.getD_cons_succ, decide_eq_true_eq]
    have hmem : (packOthers comp key aggcol ++ [aggcol]).getD j "" ∈
        packOthers comp key aggcol ++ [aggcol] := by
      rw [List.getD_eq_getElem _ _ hj]
      exact List.getElem_mem _
    rcases List.mem_append.mp hmem with hmo | hma
    · simp only [packOthers, List.mem_filter, Bool.and_eq_true,
        decide_eq_true_eq] at hmo
      exact hmo.2.1
    · rw [List.mem_singleton] at hma
      rw [hma]
      exact fun h => hka h.symm
  rw [List.filter_eq_self.mpr hall]

/-- The pack-then-left-join composition, in closed form: one output row per
principal row, built by joinRowFn. -/
theorem reconcile_eq (prin comp : Table) (key aggcol : String)
    (pi ci ai : Nat)
    (hpk : prin.colIdx key = some pi)
    (hck : comp.colIdx key = some ci)
    (hca : comp.colIdx aggcol = some ai) :
    reconcile prin comp key aggcol =
      .ok ⟨prin.header ++
          (packedTable comp key aggcol ci ai).header.filter
            (fun c => decide (c ≠ key)),
        prin.rows.map (joinRowFn comp key aggcol pi ci ai)⟩ := by
  unfold reconcile aggregate_column_to_list
  rw [hck, hca]
  dsimp only
  unfold merge_dataframes
  have hpkidx : (packedTable comp key aggcol ci ai).colIdx key = some 0 := by
    simp [Table.colIdx, packedTable, idxOfName]
  rw [hpk, hpkidx]
  dsimp only
  have hleft : ("left" = "left") := rfl
  rw [if_pos hleft]
  have hfilter : ∀ lr : List Cell,
      (packedTable comp key aggcol ci ai).rows.filter
        (fun rr => decide (cellAt rr 0 = cellAt lr pi)) =
      (if cellAt lr pi ∈ packKeys comp ci then
        [packRowFn comp key aggcol ci ai (cellAt lr pi)] else []) := by
    intro lr
    show ((packKeys comp ci).map
        (packRowFn comp key aggcol ci ai)).filter
        (fun rr => decide (cellAt rr 0 = cellAt lr pi)) = _
    rw [filter_of_map]
    have hpred : ∀ k ∈ packKeys comp ci,
        (decide (cellAt (packRowFn comp key aggcol ci ai k) 0 =
          cellAt lr pi)) = (decide (k = cellAt lr pi)) := fun k _ => rfl
    rw [List.filter_congr hpred]
    rw [filter_eq_single_of_nodup (packKeys comp ci)
      (show (packKeys comp ci).Nodup from nodup_dedupFirst _)
      (cellAt lr pi)]
    by_cases hmem : cellAt lr pi ∈ packKeys comp ci
    · rw [if_pos hmem, if_pos hmem]
      rfl
    · rw [if_neg hmem, if_neg hmem]
      rfl
  have hrow : ∀ lr : List Cell,
      (match (packedTable comp key aggcol ci ai).rows.filter
          (fun rr => decide (cellAt rr 0 = cellAt lr pi)) with
        | [] => [lr ++ (mergeKeep (packedTable comp key aggcol ci ai)
            key).map (fun _ => Cell.scalar .null)]
        | ms => ms.map (fun rr => lr ++
            (mergeKeep (packedTable comp key aggcol ci ai) key).map
              (fun j => cellAt rr j))) =
      [joinRowFn comp key aggcol pi ci ai lr] := by
    intro lr
    rw [hfilter lr]
    by_cases hmem : cellAt lr pi ∈ packKeys comp ci
    · rw [if_pos hmem]
      rw [joinRowFn, if_pos hmem]
      rfl
    · rw [if_neg hmem]
      rw [joinRowFn, if_neg hmem]
  congr 1
  rw [List.map_congr_left (fun lr _ => hrow lr)]
  rw [flatten_singletons]

/-- C3 (amended): for a complementary table with a key column and a
designated multi-valued attribute, and a principal table with a unique key
column, pack-then-left-join returns exactly one row per principal row; the
key column of the result equals the principal key column (hence stays
unique); a principal key that has a pack group (a non-null key occurring in
the complementary table) receives the ordered list of ALL the group's
aggregate values (duplicates kept, in row order) and, for every other
column, the group's first NON-NULL value (pandas GroupBy.first skips nulls —
not the first encountered value); an unmatched or null principal key
receives null in every packed column. -/
theorem C3_pack_and_left_join
    (prin comp : Table) (key aggcol : String) (pi ci ai : Nat)
    (hpk : prin.colIdx key = some pi)
    (hck : comp.colIdx key = some ci)
    (hca : comp.colIdx aggcol = some ai)
    (hka : key ≠ aggcol)
    (hwf : ∀ r ∈ prin.rows, r.length = prin.header.length)
    (hnd : (prin.colAt pi).Nodup) :
    ∃ res, reconcile prin comp key aggcol = .ok res ∧
      res.rows.length = prin.rows.length ∧
      res.colAt pi = prin.colAt pi ∧
      (res.colAt pi).Nodup ∧
      (∀ k : Cell, k ∈ packKeys comp ci ↔
        k.isNull = false ∧ k ∈ comp.colAt ci) ∧
      (∀ n, n < prin.rows.length →
        cellAt (res.rows.getD n [])
            (prin.header.length + (packOthers comp key aggcol).length) =
          (if cellAt (prin.rows.getD n []) pi ∈ packKeys comp ci then
            Cell.list ((groupRows comp ci
                (cellAt (prin.rows.getD n []) pi)).map
              (fun r => asScalar (cellAt r ai)))
          else Cell.scalar .null)) ∧
      (∀ n, n < prin.rows.length → ∀ m,
        m < (packOthers comp key aggcol).length →
        cellAt (res.rows.getD n []) (prin.header.length + m) =
          (if cellAt (prin.rows.getD n []) pi ∈ packKeys comp ci then
            (match idxOfName comp.header
                ((packOthers comp key aggcol).getD m "") with
            | some cj => firstNonNull ((groupRows comp ci
                (cellAt (prin.rows.getD n []) pi)).map (cellAt · cj))
            | none => Cell.scalar .null)
          else Cell.scalar .null)) := by
  have hpilt : pi < prin.header.length := idxOfName_lt prin.header key pi hpk
  have hjoin_pres : ∀ lr ∈ prin.rows,
      cellAt (joinRowFn comp key aggcol pi ci ai lr) pi = cellAt lr pi := by
    intro lr hlr
    have hlen : pi < lr.length := by
      rw [hwf lr hlr]
      exact hpilt
    unfold joinRowFn
    by_cases hmem : cellAt lr pi ∈ packKeys comp ci
    · rw [if_pos hmem]
      exact List.getD_append _ _ _ _ hlen
    · rw [if_neg hmem]
      exact List.getD_append _ _ _ _ hlen
  have hcol :
      (Table.colAt ⟨prin.header ++
          (packedTable comp key aggcol ci ai).header.filter
            (fun c => decide (c ≠ key)),
        prin.rows.map (joinRowFn comp key aggcol pi ci ai)⟩ pi) =
      prin.colAt pi := by
    show (prin.rows.map (joinRowFn comp key aggcol pi ci ai)).map
        (cellAt · pi) = prin.rows.map (cellAt · pi)
    rw [List.map_map]
    exact List.map_congr_left (fun lr hlr => hjoin_pres lr hlr)
  have hgetrow : ∀ n, n < prin.rows.length →
      (prin.rows.map (joinRowFn comp key aggcol pi ci ai)).getD n [] =
        joinRowFn comp key aggcol pi ci ai (prin.rows.getD n []) :=
    fun n hn => getD_map_lt _ _ _ hn [] []
  have hmemrow : ∀ n, n < prin.rows.length →
      prin.rows.getD n [] ∈ prin.rows := by
    intro n hn
    rw [List.getD_eq_getElem _ _ hn]
    exact List.getElem_mem _
  have hbody : ∀ k,
      (mergeKeep (packedTable comp key aggcol ci ai) key).map
        (fun j => cellAt (packRowFn comp key aggcol ci ai k) j) =
      ((packOthers comp key aggcol).map (fun c =>
          match idxOfName comp.header c with
          | some cj => firstNonNull ((groupRows comp ci k).map (cellAt · cj))
          | none => Cell.scalar .null)) ++
        [Cell.list ((groupRows comp ci k).map
          (fun r => asScalar (cellAt r ai)))] := by
    intro k
    rw [mergeKeep_packed comp key aggcol ci ai hka]
    rw [List.map_map]
    have hfun : ((fun j => cellAt (packRowFn comp key aggcol ci ai k) j) ∘
        Nat.succ) =
        (fun j => (((packOthers comp key aggcol).map (fun c =>
            match idxOfName comp.header c with
            | some cj => firstNonNull
                ((groupRows comp ci k).map (cellAt · cj))
            | none => Cell.scalar .null)) ++
          [Cell.list ((groupRows comp ci k).map
            (fun r => asScalar (cellAt r ai)))]).getD j
            (Cell.scalar .null)) := by
      funext j
      show cellAt (packRowFn comp key aggcol ci ai k) (j + 1) = _
      unfold packRowFn
      rw [List.cons_append]
      exact List.getD_cons_succ
    rw [hfun]
    have hlen : (packOthers comp key aggcol ++ [aggcol]).length =
        (((packOthers comp key aggcol).map (fun c =>
            match idxOfName comp.header c with
            | some cj => firstNonNull
                ((groupRows comp ci k).map (cellAt · cj))
            | none => Cell.scalar .null)) ++
          [Cell.list ((groupRows comp ci k).map
            (fun r => asScalar (cellAt r ai)))]).length := by
      simp
    rw [hlen, range_map_getD]
  refine ⟨_, reconcile_eq prin comp key aggcol pi ci ai hpk hck hca,
    by simp, hcol, by rw [hcol]; exact hnd, mem_packKeys comp ci, ?_, ?_⟩
  · intro n hn
    show cellAt ((prin.rows.map
        (joinRowFn comp key aggcol pi ci ai)).getD n [])
      (prin.header.length + (packOthers comp key aggcol).length) = _
    rw [hgetrow n hn]
    have hlen : (prin.rows.getD n []).length = prin.header.length :=
      hwf _ (hmemrow n hn)
    unfold joinRowFn
    by_cases hmem : cellAt (prin.rows.getD n []) pi ∈ packKeys comp ci
    · rw [if_pos hmem, if_pos hmem, hbody]
      simp only [cellAt]
      rw [List.getD_append_right _ _ _ _ (by rw [hlen]; omega)]
      have hidx : prin.header.length +
          (packOthers comp key aggcol).length -
          (prin.rows.getD n []).length =
          (packOthers comp key aggcol).length := by
        rw [hlen]
        omega
      rw [hidx]
      rw [List.getD_append_right _ _ _ _ (by simp)]
      simp
    · rw [if_neg hmem, if_neg hmem]
      simp only [cellAt]
      rw [List.getD_append_right _ _ _ _ (by rw [hlen]; omega)]
      exact getD_const_null _ _
  · intro n hn m hm
    show cellAt ((prin.rows.map
        (joinRowFn comp key aggcol pi ci ai)).getD n [])
      (prin.header.length + m) = _
    rw [hgetrow n hn]
    have hlen : (prin.rows.getD n []).length = prin.header.length :=
      hwf _ (hmemrow n hn)
    unfold joinRowFn
    by_cases hmem : cellAt (prin.rows.getD n []) pi ∈ packKeys comp ci
    · rw [if_pos hmem, if_pos hmem, hbody]
      simp only [cellAt]
      rw [List.getD_append_right _ _ _ _ (by rw [hlen]; omega)]
      have hidx : prin.header.length + m - (prin.rows.getD n []).length =
          m := by
        rw [hlen]
        omega
      rw [hidx]
      rw [List.getD_append _ _ _ _ (by simpa using hm)]
      exact getD_map_lt _ _ _ hm "" (Cell.scalar .null)
    · rw [if_neg hmem, if_neg hmem]
      simp only [cellAt]
      rw [List.getD_append_right _ _ _ _ (by rw [hlen]; omega)]
      exact getD_const_null _ _

/-- Principal table of the first-wins counterexample. -/
def C3prin : Table :=
  ⟨["Proc. Identificação", "P"],
   [[.scalar (.str "A"), .scalar (.str "pa")]]⟩

/-- Complementary table whose first row carries a NULL in the other column
and whose second row carries the value x, for the same key. -/
def C3comp : Table :=
  ⟨["Proc. Identificação", "Outra", "Proc. Tipo Penal"],
   [[.scalar (.str "A"), .scalar .null, .scalar (.str "roubo")],
    [.scalar (.str "A"), .scalar (.str "x"), .scalar (.str "furto")]]⟩

/-- The table the code computes for the counterexample input. -/
def C3res : Table :=
  ⟨["Proc. Identificação", "P", "Outra", "Proc. Tipo Penal"],
   [[.scalar (.str "A"), .scalar (.str "pa"), .scalar (.str "x"),
     .list [.str "roubo", .str "furto"]]]⟩

/-- C3 counterexample: the first value encountered for key A in the Outra
column is null, yet the pack+join result carries x — pandas agg("first")
keeps the first NON-NULL value per key, so the claim's "first encountered
value" policy is false on the code. -/
theorem C3_counterexample :
    cellAt (C3comp.rows.getD 0 []) 1 = Cell.scalar .null ∧
    reconcile C3prin C3comp "Proc. Identificação" "Proc. Tipo Penal" =
      .ok C3res ∧
    cellAt (C3res.rows.getD 0 []) 2 = Cell.scalar (.str "x") ∧
    cellAt (C3res.rows.getD 0 []) 2 ≠ cellAt (C3comp.rows.getD 0 []) 1 :=
  ⟨rfl, rfl, rfl, by decide⟩

/-- Principal table of concrete scenario 2 (keys A, B, C, unique). -/
def C3prinW : Table :=
  ⟨["Proc. Identificação", "P"],
   [[.scalar (.str "A"), .scalar (.str "pa")],
    [.scalar (.str "B"), .scalar (.str "pb")],
    [.scalar (.str "C"), .scalar (.str "pc")]]⟩

/-- Complementary table of concrete scenario 2. -/
def C3compW : Table :=
  ⟨["Proc. Identificação", "Proc. Tipo Penal"],
   [[.scalar (.str "A"), .scalar (.str "roubo")],
    [.scalar (.str "A"), .scalar (.str "furto")],
    [.scalar (.str "B"), .scalar (.str "estupro")]]⟩

/-- C3 witness: the reconciler on scenario 2 succeeds with 3 rows and a
unique key column. -/
theorem C3_witness :
    ∃ res, reconcile C3prinW C3compW "Proc. Identificação"
        "Proc. Tipo Penal" = .ok res ∧
      res.rows.length = 3 ∧ (res.colAt 0).Nodup := by
  obtain ⟨res, h1, h2, h3, h4, h5⟩ := C3_pack_and_left_join C3prinW C3compW
    "Proc. Identificação" "Proc. Tipo Penal" 0 0 1 rfl rfl rfl
    (by decide) (by decide) (by decide)
  exact ⟨res, h1, by rw [h2]; rfl, h4⟩

end EpolData
